import Mathlib

/-!
Verification development for the killicker track-reduction core, a shallow
embedding of DataGetter.get_data and DataGetter._compute_distance from
src/tools/DataGetter.py.  The InfluxDB client, the file system and the git
collaborators are external: the query result (a list of tables, each a list of
records) is an input of the model.  The json/git helper methods of the class
raise NotImplementedError unconditionally in the source and are not modelled.
Python float arithmetic is modelled by real arithmetic.
-/

/-- A latitude/longitude pair in degrees, the shape of the lat/lng dicts of
the source. -/
structure Pos where
  lat : ℝ
  lng : ℝ

/-- The part of an influx record timestamp that get_data reads: minute and
second (for the 10-minute grid check, line 91) and the isoformat string used
as the result dict key (line 69).  A Python isoformat string determines its
datetime, so keying by this structure is keying by the string. -/
structure Timestamp where
  minute : ℕ
  second : ℕ
  iso : String
  deriving DecidableEq

/-- The values of one influx record after the pivot: the two position columns
(lines 64, 72-75) and the five measurement columns (lines 38-44), each
possibly None. -/
structure RecValues where
  lat : Option ℝ
  lon : Option ℝ
  sog : Option ℝ
  cog : Option ℝ
  awa : Option ℝ
  aws : Option ℝ
  depth : Option ℝ

/-- One record of the single influx table processed by the loop. -/
structure InfluxRecord where
  time : Timestamp
  values : RecValues

/-- The per-timestamp dict built by get_data (lines 70-87): mandatory
position, the five measurements copied when present, and the Distance key.
Records stored through the heading-change branch (lines 97-100) carry only
position and COG, so every other key is an Option here. -/
structure TrackValues where
  position : Pos
  sog : Option ℝ
  cog : Option ℝ
  awa : Option ℝ
  aws : Option ℝ
  depth : Option ℝ
  distance : Option ℝ

/-- The state carried across loop iterations of get_data: the result dict
(insertion ordered, keyed by timestamp), prev_values (line 61) and
cumulative_distance (line 62). -/
structure LoopState where
  result : List (Timestamp × TrackValues)
  prev_values : Option TrackValues
  cumulative_distance : ℝ

/-- Python dict assignment result[k] = v: overwrite in place when the key
exists, append otherwise. -/
def updateAssoc : List (Timestamp × TrackValues) → Timestamp → TrackValues →
    List (Timestamp × TrackValues)
  | [], k, v => [(k, v)]
  | (k₀, v₀) :: rest, k, v =>
      if k₀ = k then (k, v) :: rest else (k₀, v₀) :: updateAssoc rest k v

/-- math.radians: degrees to radians. -/
noncomputable def radians (x : ℝ) : ℝ := x * Real.pi / 180

/-- The two-argument arctangent, as math.atan2 of the Python standard
library. -/
noncomputable def atan2 (y x : ℝ) : ℝ :=
  if 0 < x then Real.arctan (y / x)
  else if x < 0 then
    (if 0 ≤ y then Real.arctan (y / x) + Real.pi else Real.arctan (y / x) - Real.pi)
  else
    (if 0 < y then Real.pi / 2 else if y < 0 then -(Real.pi / 2) else 0)

/-- DataGetter._compute_distance (lines 117-133): haversine distance in
meters on a sphere of radius 6371 km. -/
noncomputable def _compute_distance (pos1 pos2 : Pos) : ℝ :=
  let R : ℝ := 6371.0
  let lat1 := radians pos1.lat
  let lon1 := radians pos1.lng
  let lat2 := radians pos2.lat
  let lon2 := radians pos2.lng
  let dlon := lon2 - lon1
  let dlat := lat2 - lat1
  let a := Real.sin (dlat / 2) ^ 2 +
    Real.cos lat1 * Real.cos lat2 * Real.sin (dlon / 2) ^ 2
  let c := 2 * atan2 (Real.sqrt a) (Real.sqrt (1 - a))
  R * c * 1000

/-- Line 84: cumulative_distance after the current record with position pos is
processed; it is advanced for every record that has a position and a previous
retained record, whether or not the record is then retained. -/
noncomputable def newCum (st : LoopState) (pos : Pos) : ℝ :=
  match st.prev_values with
  | some pv => st.cumulative_distance + _compute_distance pv.position pos
  | none => st.cumulative_distance

/-- Lines 83-87: the Distance value stamped on the values dict of the current
record: the updated cumulative distance when prev_values exists, the literal
0.0 otherwise. -/
noncomputable def distStamp (st : LoopState) (pos : Pos) : ℝ :=
  match st.prev_values with
  | some _ => newCum st pos
  | none => 0

/-- The values dict as built on lines 70-87: position, every present
measurement, and Distance. -/
def fullValues (rv : RecValues) (la lo dv : ℝ) : TrackValues :=
  ⟨⟨la, lo⟩, rv.sog, rv.cog, rv.awa, rv.aws, rv.depth, some dv⟩

/-- The dict stored on lines 97-100 for a significant course change: position
and COG only. -/
def cogValues (pos : Pos) (c : ℝ) : TrackValues :=
  ⟨pos, none, some c, none, none, none, none⟩

/-- One iteration of the record loop of get_data (lines 63-101).  The Bool is
an error flag: it is true when the iteration raises, namely when the
membership test on line 94 evaluates COG in prev_values with prev_valuesequal
to None and Python raises TypeError.  The source advances cumulative_distance
(line 84) before that test, so the state returned with the flag carries the
updated cumulative distance while result and prev_values are untouched. -/
noncomputable def processRecord (st : LoopState) (r : InfluxRecord) :
    LoopState × Bool :=
  match r.values.lat, r.values.lon with
  | some la, some lo =>
      let pos : Pos := ⟨la, lo⟩
      let cum : ℝ := newCum st pos
      let vals : TrackValues := fullValues r.values la lo (distStamp st pos)
      if r.time.minute % 10 = 0 ∧ r.time.second = 0 then
        (⟨updateAssoc st.result r.time vals, some vals, cum⟩, false)
      else
        match r.values.cog with
        | some c =>
            match st.prev_values with
            | some pv =>
                match pv.cog with
                | some pc =>
                    if 0.2618 < |c - pc| then
                      (⟨updateAssoc st.result r.time (cogValues pos c),
                        some (cogValues pos c), cum⟩, false)
                    else
                      ({ st with cumulative_distance := cum }, false)
                | none => ({ st with cumulative_distance := cum }, false)
            | none => ({ st with cumulative_distance := cum }, true)
        | none => ({ st with cumulative_distance := cum }, false)
  | _, _ => (st, false)

/-- The record loop of get_data over one table.  On an uncaught per-record
exception the loop stops and the flag is true; the result accumulated so far
is what the enclosing handler returns. -/
noncomputable def runLoop : LoopState → List InfluxRecord → LoopState × Bool
  | st, [] => (st, false)
  | st, r :: rs =>
      if (processRecord st r).2 then ((processRecord st r).1, true)
      else runLoop (processRecord st r).1 rs

/-- Lines 61-62: prev_values = None, cumulative_distance = 0.0, result = {}. -/
noncomputable def initState : LoopState := ⟨[], none, 0⟩

/-- One element of the flattened output list (line 107): the timestamp
together with the stored values.  The flattening on lines 104-107 restricts
each dict to the keys of sorted_names in that fixed order; every key ever
stored is in sorted_names, so the step only reorders keys, which a structure
does not observe. -/
structure TrackPoint where
  timestamp : Timestamp
  fields : TrackValues

/-- Lines 104-107: the result dict turned into the output list. -/
def flattenResult (l : List (Timestamp × TrackValues)) : List TrackPoint :=
  l.map (fun p => ⟨p.1, p.2⟩)

/-- What get_data returns to its caller.  The source either returns the
flattened list (normal completion) or, when an exception was raised and then
caught by the handlers on lines 109-112, the raw result dict as of the raise,
via the return in the finally block (line 115).  No exception ever propagates
out of get_data. -/
inductive GetDataResult where
  | points : List TrackPoint → GetDataResult
  | raw : List (Timestamp × TrackValues) → GetDataResult
  deriving Nonempty

/-- DataGetter.get_data (lines 19-115).  The influx query result is the
tables input; interval (default 10m) only interpolates into the upstream
query text (line 34) and is never read again, and start_time/stop_time are
likewise query-only and omitted.  More than one table raises on line 58
before any record is processed; the handler catches it and the finally block
returns the result dict, still empty at that point. -/
noncomputable def get_data (interval : String)
    (tables : List (List InfluxRecord)) : GetDataResult :=
  if tables.length > 1 then GetDataResult.raw []
  else
    match tables with
    | [] => GetDataResult.points []
    | t :: _ =>
        match runLoop initState t with
        | (st, false) => GetDataResult.points (flattenResult st.result)
        | (st, true) => GetDataResult.raw st.result

/-- The track content a caller can read off the returned value, as a list of
timestamp/values pairs, for either return shape. -/
def trackOf : GetDataResult → List (Timestamp × TrackValues)
  | GetDataResult.points ps => ps.map (fun p => (p.timestamp, p.fields))
  | GetDataResult.raw l => l

/-- Modelled from the spec: GeodesicMath.angular_difference, the magnitude of
the difference of two headings measured on the shortest circular arc,
min of the naive difference and its complement to a full turn.  This is the
spec-side comparison function; the source (line 94) uses the naive absolute
difference instead. -/
noncomputable def angular_difference (a b : ℝ) : ℝ :=
  min |a - b| (2 * Real.pi - |a - b|)

/-- The loop invariant of the reduction: the result dict is empty exactly
when prev_values is unset, the first retained entry is an on-grid record
whose Distance is 0, the Distance values present in the result are a
non-decreasing chain, every one of them is at most the carried cumulative
distance, and the cumulative distance is non-negative. -/
def LoopInv (st : LoopState) : Prop :=
  (st.result = [] ↔ st.prev_values = none) ∧
  (∀ ts v rest, st.result = (ts, v) :: rest →
    (ts.minute % 10 = 0 ∧ ts.second = 0) ∧ v.distance = some 0) ∧
  List.Chain' (fun a b => a ≤ b) (st.result.filterMap (fun p => p.2.distance)) ∧
  (∀ x ∈ st.result.filterMap (fun p => p.2.distance), x ≤ st.cumulative_distance) ∧
  0 ≤ st.cumulative_distance

/-- Concrete input for the wrap-around heading scenario: an on-grid record
whose COG is 6.27 rad, about 359.3 degrees. -/
def c1rec0 : InfluxRecord :=
  ⟨⟨0, 0, "2025-07-01T00:00:00+00:00"⟩,
   ⟨some 10, some 10, none, some 6.27, none, none, none⟩⟩

/-- An off-grid record whose COG is 0.01 rad: the shortest-arc change from
6.27 rad is about 0.023 rad, far below the threshold. -/
def c1rec1 : InfluxRecord :=
  ⟨⟨7, 0, "2025-07-01T00:07:00+00:00"⟩,
   ⟨some 10, some 11, none, some 0.01, none, none, none⟩⟩

/-- The three-sample scenario of the spec: on-grid at minute 0, COG 0 rad,
position 0N 0E. -/
def c2rec0 : InfluxRecord :=
  ⟨⟨0, 0, "2025-07-02T00:00:00+00:00"⟩,
   ⟨some 0, some 0, none, some 0, none, none, none⟩⟩

/-- Off-grid sample at minute 3, COG 0.1745 rad (10 degrees), position
0N 90E; the course change is below the threshold, so it is dropped. -/
def c2rec1 : InfluxRecord :=
  ⟨⟨3, 0, "2025-07-02T00:03:00+00:00"⟩,
   ⟨some 0, some 90, none, some 0.1745, none, none, none⟩⟩

/-- On-grid sample at minute 10, COG 0.0873 rad (5 degrees), position
0N 180E. -/
def c2rec2 : InfluxRecord :=
  ⟨⟨10, 0, "2025-07-02T00:10:00+00:00"⟩,
   ⟨some 0, some 180, none, some 0.0873, none, none, none⟩⟩

/-- On-grid record with COG 0 rad. -/
def c3rec0 : InfluxRecord :=
  ⟨⟨0, 0, "2025-07-03T00:00:00+00:00"⟩,
   ⟨some 3, some 4, none, some 0, none, none, none⟩⟩

/-- Off-grid record with COG 1 rad: a course change of 1 rad exceeds the
threshold, so this record is stored through the heading-change branch. -/
def c3rec1 : InfluxRecord :=
  ⟨⟨4, 0, "2025-07-03T00:04:00+00:00"⟩,
   ⟨some 3, some 5, none, some 1, none, none, none⟩⟩

/-- On-grid record at minute 0 with a valid position and no COG. -/
def c5rec0 : InfluxRecord :=
  ⟨⟨0, 0, "2025-07-05T00:00:00+00:00"⟩,
   ⟨some 1, some 1, none, none, none, none, none⟩⟩

/-- Record at minute 5, second 0, with a valid position: aligned to a
5-minute grid but off the hardcoded 10-minute grid. -/
def c5rec1 : InfluxRecord :=
  ⟨⟨5, 0, "2025-07-05T00:05:00+00:00"⟩,
   ⟨some 2, some 2, none, none, none, none, none⟩⟩

/-- On-grid record carrying every measurement. -/
def c6rec : InfluxRecord :=
  ⟨⟨20, 0, "2025-07-06T00:20:00+00:00"⟩,
   ⟨some 7, some 8, some 5, some 1, some 2, some 3, some 4⟩⟩

/-- Two on-grid records with distinct timestamps and valid positions. -/
def c7rec0 : InfluxRecord :=
  ⟨⟨0, 0, "2025-07-07T00:00:00+00:00"⟩,
   ⟨some 1, some 2, none, none, none, none, none⟩⟩

def c7rec1 : InfluxRecord :=
  ⟨⟨10, 0, "2025-07-07T00:10:00+00:00"⟩,
   ⟨some 1, some 3, none, none, none, none, none⟩⟩

/-- A record whose longitude column is None. -/
def c8rec : InfluxRecord :=
  ⟨⟨6, 30, "2025-07-08T00:06:30+00:00"⟩,
   ⟨some 1, none, none, none, none, none, none⟩⟩

/-- An arbitrary record with a valid position. -/
def c9rec : InfluxRecord :=
  ⟨⟨0, 0, "2025-07-09T00:00:00+00:00"⟩,
   ⟨some 1, some 1, none, none, none, none, none⟩⟩

/-- An off-grid record with a valid position and a COG, fed to the reducer
before anything has been retained. -/
def c10rec0 : InfluxRecord :=
  ⟨⟨2, 0, "2025-07-10T00:02:00+00:00"⟩,
   ⟨some 1, some 1, none, some 1, none, none, none⟩⟩

/-- An on-grid record with a valid position. -/
def c10rec1 : InfluxRecord :=
  ⟨⟨20, 0, "2025-07-10T00:20:00+00:00"⟩,
   ⟨some 1, some 1, none, none, none, none, none⟩⟩

theorem atan2_nonneg (y x : ℝ) (hy : 0 ≤ y) (hx : 0 ≤ x) : 0 ≤ atan2 y x := by
  unfold atan2
  rcases lt_trichotomy 0 x with h | h | h
  · rw [if_pos h]
    have : Real.arctan 0 ≤ Real.arctan (y / x) :=
      Real.arctan_strictMono.monotone (div_nonneg hy (le_of_lt h))
    simpa [Real.arctan_zero] using this
  · rw [if_neg (by rw [← h]; exact lt_irrefl 0), if_neg (by rw [← h]; exact lt_irrefl 0)]
    rcases lt_or_eq_of_le hy with hy' | hy'
    · rw [if_pos hy']
      positivity
    · rw [if_neg (by rw [← hy']; exact lt_irrefl 0), if_neg (by rw [← hy']; exact lt_irrefl 0)]
  · exact absurd h (not_lt.mpr hx)

theorem compute_distance_nonneg (p q : Pos) : 0 ≤ _compute_distance p q := by
  unfold _compute_distance
  have h := atan2_nonneg (Real.sqrt (Real.sin ((radians q.lat - radians p.lat) / 2) ^ 2 +
      Real.cos (radians p.lat) * Real.cos (radians q.lat) *
      Real.sin ((radians q.lng - radians p.lng) / 2) ^ 2))
    (Real.sqrt (1 - (Real.sin ((radians q.lat - radians p.lat) / 2) ^ 2 +
      Real.cos (radians p.lat) * Real.cos (radians q.lat) *
      Real.sin ((radians q.lng - radians p.lng) / 2) ^ 2)))
    (Real.sqrt_nonneg _) (Real.sqrt_nonneg _)
  nlinarith [h]

theorem processRecord_noPos (st : LoopState) (r : InfluxRecord)
    (h : r.values.lat = none ∨ r.values.lon = none) :
    processRecord st r = (st, false) := by
  unfold processRecord
  rcases h with h | h
  · rw [h]
  · rw [h]
    cases r.values.lat <;> rfl

theorem processRecord_full (st : LoopState) (r : InfluxRecord) (la lo : ℝ)
    (hla : r.values.lat = some la) (hlo : r.values.lon = some lo)
    (hm : r.time.minute % 10 = 0) (hs : r.time.second = 0) :
    processRecord st r =
      (⟨updateAssoc st.result r.time
          (fullValues r.values la lo (distStamp st ⟨la, lo⟩)),
        some (fullValues r.values la lo (distStamp st ⟨la, lo⟩)),
        newCum st ⟨la, lo⟩⟩, false) := by
  unfold processRecord
  rw [hla, hlo]
  simp only []
  rw [if_pos ⟨hm, hs⟩]

theorem processRecord_cogRetain (st : LoopState) (r : InfluxRecord)
    (la lo c pc : ℝ) (pv : TrackValues)
    (hla : r.values.lat = some la) (hlo : r.values.lon = some lo)
    (hgrid : ¬(r.time.minute % 10 = 0 ∧ r.time.second = 0))
    (hcog : r.values.cog = some c)
    (hprev : st.prev_values = some pv) (hpc : pv.cog = some pc)
    (hth : 0.2618 < |c - pc|) :
    processRecord st r =
      (⟨updateAssoc st.result r.time (cogValues ⟨la, lo⟩ c),
        some (cogValues ⟨la, lo⟩ c),
        st.cumulative_distance + _compute_distance pv.position ⟨la, lo⟩⟩,
       false) := by
  unfold processRecord
  rw [hla, hlo]
  simp only []
  rw [if_neg hgrid, hcog]
  simp only [hprev, hpc]
  rw [if_pos hth]
  simp [newCum, hprev]

theorem processRecord_cogDrop (st : LoopState) (r : InfluxRecord)
    (la lo c pc : ℝ) (pv : TrackValues)
    (hla : r.values.lat = some la) (hlo : r.values.lon = some lo)
    (hgrid : ¬(r.time.minute % 10 = 0 ∧ r.time.second = 0))
    (hcog : r.values.cog = some c)
    (hprev : st.prev_values = some pv) (hpc : pv.cog = some pc)
    (hth : ¬(0.2618 < |c - pc|)) :
    processRecord st r =
      ({ st with cumulative_distance := newCum st ⟨la, lo⟩ }, false) := by
  unfold processRecord
  rw [hla, hlo]
  simp only []
  rw [if_neg hgrid, hcog]
  simp only [hprev, hpc]
  rw [if_neg hth]

theorem processRecord_noCog (st : LoopState) (r : InfluxRecord) (la lo : ℝ)
    (hla : r.values.lat = some la) (hlo : r.values.lon = some lo)
    (hgrid : ¬(r.time.minute % 10 = 0 ∧ r.time.second = 0))
    (hcog : r.values.cog = none) :
    processRecord st r =
      ({ st with cumulative_distance := newCum st ⟨la, lo⟩ }, false) := by
  unfold processRecord
  rw [hla, hlo]
  simp only []
  rw [if_neg hgrid, hcog]

theorem processRecord_prevNoCog (st : LoopState) (r : InfluxRecord)
    (la lo c : ℝ) (pv : TrackValues)
    (hla : r.values.lat = some la) (hlo : r.values.lon = some lo)
    (hgrid : ¬(r.time.minute % 10 = 0 ∧ r.time.second = 0))
    (hcog : r.values.cog = some c)
    (hprev : st.prev_values = some pv) (hpc : pv.cog = none) :
    processRecord st r =
      ({ st with cumulative_distance := newCum st ⟨la, lo⟩ }, false) := by
  unfold processRecord
  rw [hla, hlo]
  simp only []
  rw [if_neg hgrid, hcog]
  simp only [hprev, hpc]

theorem processRecord_typeError (st : LoopState) (r : InfluxRecord)
    (la lo c : ℝ)
    (hla : r.values.lat = some la) (hlo : r.values.lon = some lo)
    (hgrid : ¬(r.time.minute % 10 = 0 ∧ r.time.second = 0))
    (hcog : r.values.cog = some c)
    (hprev : st.prev_values = none) :
    processRecord st r = (st, true) := by
  unfold processRecord
  rw [hla, hlo]
  simp only []
  rw [if_neg hgrid, hcog]
  simp only [hprev, newCum]
  rw [← hprev]

theorem runLoop_cons_ok (st st' : LoopState) (r : InfluxRecord)
    (rs : List InfluxRecord) (h : processRecord st r = (st', false)) :
    runLoop st (r :: rs) = runLoop st' rs := by
  simp [runLoop, h]

theorem runLoop_cons_err (st st' : LoopState) (r : InfluxRecord)
    (rs : List InfluxRecord) (h : processRecord st r = (st', true)) :
    runLoop st (r :: rs) = (st', true) := by
  simp [runLoop, h]

theorem trackOf_flatten (l : List (Timestamp × TrackValues)) :
    List.map (fun p => (p.timestamp, p.fields)) (flattenResult l) = l := by
  induction l with
  | nil => rfl
  | cons hd tl ih => simp [flattenResult] at ih ⊢; exact ih

theorem trackOf_get_data (interval : String) (t : List InfluxRecord) :
    trackOf (get_data interval [t]) = (runLoop initState t).1.result := by
  unfold get_data
  rw [if_neg (by simp)]
  dsimp only
  cases h : runLoop initState t with
  | mk st flag =>
    cases flag
    · simp [trackOf, trackOf_flatten]
    · simp [trackOf]

/-- Claim C6: every merged record whose timestamp lies exactly on the grid
boundary (minute a multiple of 10, second 0) and which has a valid position
is retained as a full keyframe carrying every field present in its field map
(all present measurements, the position, and a Distance stamp), regardless of
its heading or of any previously retained state. -/
theorem c6_full_on_grid (st : LoopState) (r : InfluxRecord) (la lo : ℝ)
    (hla : r.values.lat = some la) (hlo : r.values.lon = some lo)
    (hm : r.time.minute % 10 = 0) (hs : r.time.second = 0) :
    processRecord st r =
      (⟨updateAssoc st.result r.time
          (fullValues r.values la lo (distStamp st ⟨la, lo⟩)),
        some (fullValues r.values la lo (distStamp st ⟨la, lo⟩)),
        newCum st ⟨la, lo⟩⟩, false) :=
  processRecord_full st r la lo hla hlo hm hs

theorem c6_full_on_grid_witness :
    c6rec.values.lat = some 7 ∧ c6rec.values.lon = some 8 ∧
    c6rec.time.minute % 10 = 0 ∧ c6rec.time.second = 0 ∧
    processRecord initState c6rec =
      (⟨updateAssoc initState.result c6rec.time
          (fullValues c6rec.values 7 8 (distStamp initState ⟨7, 8⟩)),
        some (fullValues c6rec.values 7 8 (distStamp initState ⟨7, 8⟩)),
        newCum initState ⟨7, 8⟩⟩, false) :=
  ⟨rfl, rfl, rfl, rfl, c6_full_on_grid initState c6rec 7 8 rfl rfl rfl rfl⟩

/-- Claim C8: a merged record missing either position coordinate is a
recoverable skip: it never reaches the output, leaves the whole loop state
(including cumulative_distance and the retained history) unchanged, raises
no error, and processing of the remaining records continues. -/
theorem c8_missing_position_skipped (st : LoopState) (r : InfluxRecord)
    (rs : List InfluxRecord)
    (h : r.values.lat = none ∨ r.values.lon = none) :
    processRecord st r = (st, false) ∧
    runLoop st (r :: rs) = runLoop st rs := by
  have hp := processRecord_noPos st r h
  exact ⟨hp, runLoop_cons_ok st st r rs hp⟩

theorem c8_missing_position_skipped_witness :
    (c8rec.values.lat = none ∨ c8rec.values.lon = none) ∧
    processRecord initState c8rec = (initState, false) ∧
    runLoop initState [c8rec] = runLoop initState [] :=
  ⟨Or.inr rfl, c8_missing_position_skipped initState c8rec [] (Or.inr rfl)⟩

/-- Claim C9: the reduction is a pure function of the query result and the
configuration: two runs of get_data over the same tables with the same
interval return identical outputs (timestamps, field subsets and values,
Distance included).  The model makes the purity explicit: the only effects
of the source besides the returned value are log prints, and the returned
value is computed from the inputs alone. -/
theorem c9_deterministic (interval : String)
    (tables₁ tables₂ : List (List InfluxRecord)) (h : tables₁ = tables₂) :
    get_data interval tables₁ = get_data interval tables₂ := by
  rw [h]

theorem c9_deterministic_witness :
    ([[c9rec]] : List (List InfluxRecord)) = [[c9rec]] ∧
    get_data "10m" [[c9rec]] = get_data "10m" [[c9rec]] :=
  ⟨rfl, c9_deterministic "10m" [[c9rec]] [[c9rec]] rfl⟩

/-- Claim C4, counterexample: on a query result of two (even empty) tables,
get_data raises internally but the handler catches the exception and the
finally block returns the result dict, still empty: the caller receives a
normally returned empty track, not a propagated failure.  The claim that the
error is surfaced to the caller as a hard failure and that no empty track is
returned as if complete is false on this input. -/
theorem c4_counterexample :
    get_data "10m" [[], []] = GetDataResult.raw [] ∧
    trackOf (get_data "10m" [[], []]) = [] :=
  ⟨rfl, rfl⟩

/-- Claim C4, amended: when the query yields more than one table, get_data
raises before processing any record, but the exception is caught and logged
inside get_data and the empty accumulated result is returned to the caller;
no exception propagates out of the call. -/
theorem c4_multi_table_swallowed (interval : String)
    (tables : List (List InfluxRecord)) (h : 1 < tables.length) :
    get_data interval tables = GetDataResult.raw [] := by
  unfold get_data
  rw [if_pos h]

theorem c4_multi_table_swallowed_witness :
    1 < ([[], []] : List (List InfluxRecord)).length ∧
    get_data "10m" [[], []] = GetDataResult.raw [] :=
  ⟨by decide, c4_multi_table_swallowed "10m" [[], []] (by decide)⟩

/-- Claim C5, counterexample: the grid width used by the on-grid check is not
a caller-supplied configuration value.  The only cadence the caller can pass,
the interval argument, has no effect on the output at all, and under
interval 5m a record at minute 5, second 0 (which a 5-minute grid would
retain in full) is dropped: the modulus is the hardcoded literal 10. -/
theorem c5_counterexample :
    get_data "5m" [[c5rec0, c5rec1]] = get_data "10m" [[c5rec0, c5rec1]] ∧
    trackOf (get_data "5m" [[c5rec0, c5rec1]]) =
      [(c5rec0.time, fullValues c5rec0.values 1 1 0)] := by
  refine ⟨rfl, ?_⟩
  rw [trackOf_get_data]
  have h1 : processRecord initState c5rec0 =
      (⟨[(c5rec0.time, fullValues c5rec0.values 1 1 0)],
        some (fullValues c5rec0.values 1 1 0), 0⟩, false) :=
    processRecord_full initState c5rec0 1 1 rfl rfl rfl rfl
  rw [runLoop_cons_ok _ _ _ _ h1]
  have h2 : processRecord
      ⟨[(c5rec0.time, fullValues c5rec0.values 1 1 0)],
        some (fullValues c5rec0.values 1 1 0), 0⟩ c5rec1 =
      ({ result := [(c5rec0.time, fullValues c5rec0.values 1 1 0)],
         prev_values := some (fullValues c5rec0.values 1 1 0),
         cumulative_distance :=
           newCum ⟨[(c5rec0.time, fullValues c5rec0.values 1 1 0)],
             some (fullValues c5rec0.values 1 1 0), 0⟩ ⟨2, 2⟩ }, false) :=
    processRecord_noCog _ c5rec1 2 2 rfl rfl (by decide) rfl
  rw [runLoop_cons_ok _ _ _ _ h2]
  rfl

/-- Claim C5, amended: the on-grid modulus (10 minutes) and the heading
threshold (0.2618 rad) are hardcoded literals of get_data, not caller
configuration; the interval argument only shapes the upstream query and the
reduction output is identical for any two interval values; no configuration
validation exists, and a record off the fixed 10-minute grid without COG is
never retained whatever the state. -/
theorem c5_hardcoded_grid :
    (∀ (i j : String) (tables : List (List InfluxRecord)),
        get_data i tables = get_data j tables) ∧
    (∀ (st : LoopState) (r : InfluxRecord) (la lo : ℝ),
        r.values.lat = some la → r.values.lon = some lo →
        r.values.cog = none →
        ¬(r.time.minute % 10 = 0 ∧ r.time.second = 0) →
        processRecord st r =
          ({ st with cumulative_distance := newCum st ⟨la, lo⟩ }, false)) :=
  ⟨fun _ _ _ => rfl,
   fun st r la lo hla hlo hcog hgrid =>
     processRecord_noCog st r la lo hla hlo hgrid hcog⟩

theorem c5_hardcoded_grid_witness :
    get_data "5m" [[c5rec1]] = get_data "10m" [[c5rec1]] ∧
    c5rec1.values.lat = some 2 ∧ c5rec1.values.lon = some 2 ∧
    c5rec1.values.cog = none ∧
    ¬(c5rec1.time.minute % 10 = 0 ∧ c5rec1.time.second = 0) ∧
    processRecord initState c5rec1 =
      ({ initState with cumulative_distance := newCum initState ⟨2, 2⟩ },
       false) :=
  ⟨c5_hardcoded_grid.1 "5m" "10m" [[c5rec1]], rfl, rfl, rfl, by decide,
   c5_hardcoded_grid.2 initState c5rec1 2 2 rfl rfl rfl (by decide)⟩

/-- Claim C1 fails on the code: line 94 compares the naive absolute
difference of the two COG values against 0.2618 instead of the shortest
circular arc.  Concretely, with a previously retained COG of 6.27 rad and a
current off-grid COG of 0.01 rad the circular difference is about 0.023 rad,
below the threshold, so by the claim the record must be dropped; the code
retains it (naive difference 6.26 rad), and the partial keyframe appears in
the output track. -/
theorem c1_naive_angle_run :
    trackOf (get_data "10m" [[c1rec0, c1rec1]]) =
      [(c1rec0.time, fullValues c1rec0.values 10 10 0),
       (c1rec1.time, cogValues ⟨10, 11⟩ 0.01)] ∧
    angular_difference 0.01 6.27 < 0.2618 := by
  constructor
  · rw [trackOf_get_data]
    have h1 : processRecord initState c1rec0 =
        (⟨[(c1rec0.time, fullValues c1rec0.values 10 10 0)],
          some (fullValues c1rec0.values 10 10 0), 0⟩, false) :=
      processRecord_full initState c1rec0 10 10 rfl rfl rfl rfl
    rw [runLoop_cons_ok _ _ _ _ h1]
    have habs : (0.2618 : ℝ) < |(0.01 : ℝ) - 6.27| := by
      rw [show (0.01 : ℝ) - 6.27 = -(6.26) by norm_num, abs_neg,
        abs_of_nonneg (by norm_num : (0 : ℝ) ≤ 6.26)]
      norm_num
    have h2 := processRecord_cogRetain
      ⟨[(c1rec0.time, fullValues c1rec0.values 10 10 0)],
        some (fullValues c1rec0.values 10 10 0), 0⟩
      c1rec1 10 11 0.01 6.27 (fullValues c1rec0.values 10 10 0)
      rfl rfl (by decide) rfl rfl rfl habs
    rw [runLoop_cons_ok _ _ _ _ h2]
    rfl
  · have habs : |(0.01 : ℝ) - 6.27| = 6.26 := by
      rw [show (0.01 : ℝ) - 6.27 = -(6.26) by norm_num, abs_neg,
        abs_of_nonneg (by norm_num : (0 : ℝ) ≤ 6.26)]
    unfold angular_difference
    rw [habs]
    have hmin : min (6.26 : ℝ) (2 * Real.pi - 6.26) ≤ 2 * Real.pi - 6.26 :=
      min_le_right _ _
    have hpi : 2 * Real.pi - 6.26 < (0.2618 : ℝ) := by
      nlinarith [Real.pi_lt_d2]
    linarith

/-- Claim C3, counterexample: a run in which a significant course change is
stored shows the emitted heading-change keyframe carries only position and
COG; in particular its Distance key is absent, although the claim states
Distance is defined for such keyframes. -/
theorem c3_counterexample :
    trackOf (get_data "10m" [[c3rec0, c3rec1]]) =
      [(c3rec0.time, fullValues c3rec0.values 3 4 0),
       (c3rec1.time, cogValues ⟨3, 5⟩ 1)] ∧
    (cogValues ⟨3, 5⟩ 1).distance = none := by
  refine ⟨?_, rfl⟩
  rw [trackOf_get_data]
  have h1 : processRecord initState c3rec0 =
      (⟨[(c3rec0.time, fullValues c3rec0.values 3 4 0)],
        some (fullValues c3rec0.values 3 4 0), 0⟩, false) :=
    processRecord_full initState c3rec0 3 4 rfl rfl rfl rfl
  rw [runLoop_cons_ok _ _ _ _ h1]
  have habs : (0.2618 : ℝ) < |(1 : ℝ) - 0| := by
    rw [sub_zero, abs_one]
    norm_num
  have h2 := processRecord_cogRetain
    ⟨[(c3rec0.time, fullValues c3rec0.values 3 4 0)],
      some (fullValues c3rec0.values 3 4 0), 0⟩
    c3rec1 3 5 1 0 (fullValues c3rec0.values 3 4 0)
    rfl rfl (by decide) rfl rfl rfl habs
  rw [runLoop_cons_ok _ _ _ _ h2]
  rfl

/-- Claim C3, amended: a record retained through the heading-change branch is
stored with exactly the fields position and COG (its Distance key is absent),
and processing such a record advances the internally carried cumulative
distance by the haversine distance from the position of the previously
retained record to its own position, although that value is not stamped on
the stored keyframe. -/
theorem c3_cog_keyframe_shape (st : LoopState) (r : InfluxRecord)
    (la lo c pc : ℝ) (pv : TrackValues)
    (hla : r.values.lat = some la) (hlo : r.values.lon = some lo)
    (hgrid : ¬(r.time.minute % 10 = 0 ∧ r.time.second = 0))
    (hcog : r.values.cog = some c)
    (hprev : st.prev_values = some pv) (hpc : pv.cog = some pc)
    (hth : 0.2618 < |c - pc|) :
    processRecord st r =
      (⟨updateAssoc st.result r.time (cogValues ⟨la, lo⟩ c),
        some (cogValues ⟨la, lo⟩ c),
        st.cumulative_distance + _compute_distance pv.position ⟨la, lo⟩⟩,
       false) ∧
    (cogValues ⟨la, lo⟩ c).sog = none ∧
    (cogValues ⟨la, lo⟩ c).awa = none ∧
    (cogValues ⟨la, lo⟩ c).aws = none ∧
    (cogValues ⟨la, lo⟩ c).depth = none ∧
    (cogValues ⟨la, lo⟩ c).distance = none ∧
    (cogValues ⟨la, lo⟩ c).position = ⟨la, lo⟩ ∧
    (cogValues ⟨la, lo⟩ c).cog = some c :=
  ⟨processRecord_cogRetain st r la lo c pc pv hla hlo hgrid hcog hprev hpc hth,
   rfl, rfl, rfl, rfl, rfl, rfl, rfl⟩

theorem c3_cog_keyframe_shape_witness :
    c3rec1.values.lat = some 3 ∧ c3rec1.values.lon = some 5 ∧
    ¬(c3rec1.time.minute % 10 = 0 ∧ c3rec1.time.second = 0) ∧
    c3rec1.values.cog = some 1 ∧
    (LoopState.mk [] (some (cogValues ⟨0, 0⟩ 0)) 0).prev_values =
      some (cogValues ⟨0, 0⟩ 0) ∧
    (cogValues ⟨0, 0⟩ 0).cog = some 0 ∧
    (0.2618 : ℝ) < |(1 : ℝ) - 0| ∧
    (processRecord ⟨[], some (cogValues ⟨0, 0⟩ 0), 0⟩ c3rec1 =
      (⟨updateAssoc [] c3rec1.time (cogValues ⟨3, 5⟩ 1),
        some (cogValues ⟨3, 5⟩ 1),
        0 + _compute_distance (cogValues ⟨0, 0⟩ 0).position ⟨3, 5⟩⟩,
       false) ∧
     (cogValues ⟨3, 5⟩ 1).sog = none ∧
     (cogValues ⟨3, 5⟩ 1).awa = none ∧
     (cogValues ⟨3, 5⟩ 1).aws = none ∧
     (cogValues ⟨3, 5⟩ 1).depth = none ∧
     (cogValues ⟨3, 5⟩ 1).distance = none ∧
     (cogValues ⟨3, 5⟩ 1).position = ⟨3, 5⟩ ∧
     (cogValues ⟨3, 5⟩ 1).cog = some 1) :=
  ⟨rfl, rfl, by decide, rfl, rfl, rfl,
   by rw [sub_zero, abs_one]; norm_num,
   c3_cog_keyframe_shape ⟨[], some (cogValues ⟨0, 0⟩ 0), 0⟩ c3rec1 3 5 1 0
     (cogValues ⟨0, 0⟩ 0) rfl rfl (by decide) rfl rfl rfl
     (by rw [sub_zero, abs_one]; norm_num)⟩

theorem c2_dist01 :
    _compute_distance ⟨0, 0⟩ ⟨0, 90⟩ = 6371.0 * (Real.pi / 2) * 1000 := by
  unfold _compute_distance radians
  dsimp only
  simp only [show (0 : ℝ) * Real.pi / 180 = 0 from by ring]
  rw [show ((0 : ℝ) - 0) / 2 = 0 from by ring,
    show ((90 : ℝ) * Real.pi / 180 - 0) / 2 = Real.pi / 4 from by ring,
    Real.sin_zero, Real.cos_zero, Real.sin_pi_div_four,
    show (0 : ℝ) ^ 2 + 1 * 1 * (Real.sqrt 2 / 2) ^ 2 = 1 / 2 from by
      rw [div_pow, Real.sq_sqrt (by norm_num : (0 : ℝ) ≤ 2)]
      norm_num,
    show (1 : ℝ) - 1 / 2 = 1 / 2 from by norm_num]
  have hpos : 0 < Real.sqrt (1 / 2) := Real.sqrt_pos.mpr (by norm_num)
  unfold atan2
  rw [if_pos hpos, div_self (ne_of_gt hpos), Real.arctan_one]
  ring

theorem c2_dist02 :
    _compute_distance ⟨0, 0⟩ ⟨0, 180⟩ = 6371.0 * Real.pi * 1000 := by
  unfold _compute_distance radians
  dsimp only
  simp only [show (0 : ℝ) * Real.pi / 180 = 0 from by ring]
  rw [show ((0 : ℝ) - 0) / 2 = 0 from by ring,
    show ((180 : ℝ) * Real.pi / 180 - 0) / 2 = Real.pi / 2 from by ring,
    Real.sin_zero, Real.cos_zero, Real.sin_pi_div_two,
    show (0 : ℝ) ^ 2 + 1 * 1 * (1 : ℝ) ^ 2 = 1 from by norm_num,
    show (1 : ℝ) - 1 = 0 from by norm_num,
    Real.sqrt_zero, Real.sqrt_one]
  unfold atan2
  rw [if_neg (lt_irrefl 0), if_neg (lt_irrefl 0), if_pos one_pos]
  ring

/-- Claim C2 fails on the code: cumulative_distance is advanced on line 84
for every record that has a position and a previous retained record, even
when the record is then discarded, and the distance added is measured from
the stale previously retained position.  On the three-sample scenario of the
spec (on-grid at 00:00 at 0N 0E, off-grid at 00:03 at 0N 90E dropped for a
small course change, on-grid at 00:10 at 0N 180E) the track does contain
exactly the two on-grid points, but the second Distance is
d(p0,p1) + d(p0,p2), not the haversine distance d(p0,p2) between the two
retained positions that the claim requires. -/
theorem c2_run :
    trackOf (get_data "10m" [[c2rec0, c2rec1, c2rec2]]) =
      [(c2rec0.time, fullValues c2rec0.values 0 0 0),
       (c2rec2.time, fullValues c2rec2.values 0 180
         (6371.0 * (Real.pi / 2) * 1000 + 6371.0 * Real.pi * 1000))] ∧
    6371.0 * (Real.pi / 2) * 1000 + 6371.0 * Real.pi * 1000 ≠
      _compute_distance ⟨0, 0⟩ ⟨0, 180⟩ := by
  constructor
  · rw [trackOf_get_data]
    have h1 : processRecord initState c2rec0 =
        (⟨[(c2rec0.time, fullValues c2rec0.values 0 0 0)],
          some (fullValues c2rec0.values 0 0 0), 0⟩, false) :=
      processRecord_full initState c2rec0 0 0 rfl rfl rfl rfl
    rw [runLoop_cons_ok _ _ _ _ h1]
    have hth : ¬((0.2618 : ℝ) < |(0.1745 : ℝ) - 0|) := by
      rw [sub_zero, abs_of_nonneg (by norm_num : (0 : ℝ) ≤ 0.1745)]
      norm_num
    have h2 : processRecord
        ⟨[(c2rec0.time, fullValues c2rec0.values 0 0 0)],
          some (fullValues c2rec0.values 0 0 0), 0⟩ c2rec1 =
        (⟨[(c2rec0.time, fullValues c2rec0.values 0 0 0)],
          some (fullValues c2rec0.values 0 0 0),
          newCum ⟨[(c2rec0.time, fullValues c2rec0.values 0 0 0)],
            some (fullValues c2rec0.values 0 0 0), 0⟩ ⟨0, 90⟩⟩, false) :=
      processRecord_cogDrop _ c2rec1 0 90 0.1745 0
        (fullValues c2rec0.values 0 0 0) rfl rfl (by decide) rfl rfl rfl hth
    rw [runLoop_cons_ok _ _ _ _ h2]
    have h3 : processRecord
        ⟨[(c2rec0.time, fullValues c2rec0.values 0 0 0)],
          some (fullValues c2rec0.values 0 0 0),
          newCum ⟨[(c2rec0.time, fullValues c2rec0.values 0 0 0)],
            some (fullValues c2rec0.values 0 0 0), 0⟩ ⟨0, 90⟩⟩ c2rec2 =
        (⟨[(c2rec0.time, fullValues c2rec0.values 0 0 0),
           (c2rec2.time, fullValues c2rec2.values 0 180
             (distStamp ⟨[(c2rec0.time, fullValues c2rec0.values 0 0 0)],
               some (fullValues c2rec0.values 0 0 0),
               newCum ⟨[(c2rec0.time, fullValues c2rec0.values 0 0 0)],
                 some (fullValues c2rec0.values 0 0 0), 0⟩ ⟨0, 90⟩⟩
               ⟨0, 180⟩))],
          some (fullValues c2rec2.values 0 180
            (distStamp ⟨[(c2rec0.time, fullValues c2rec0.values 0 0 0)],
              some (fullValues c2rec0.values 0 0 0),
              newCum ⟨[(c2rec0.time, fullValues c2rec0.values 0 0 0)],
                some (fullValues c2rec0.values 0 0 0), 0⟩ ⟨0, 90⟩⟩
              ⟨0, 180⟩)),
          newCum ⟨[(c2rec0.time, fullValues c2rec0.values 0 0 0)],
            some (fullValues c2rec0.values 0 0 0),
            newCum ⟨[(c2rec0.time, fullValues c2rec0.values 0 0 0)],
              some (fullValues c2rec0.values 0 0 0), 0⟩ ⟨0, 90⟩⟩
            ⟨0, 180⟩⟩, false) :=
      processRecord_full _ c2rec2 0 180 rfl rfl rfl rfl
    rw [runLoop_cons_ok _ _ _ _ h3]
    have hD : distStamp ⟨[(c2rec0.time, fullValues c2rec0.values 0 0 0)],
        some (fullValues c2rec0.values 0 0 0),
        newCum ⟨[(c2rec0.time, fullValues c2rec0.values 0 0 0)],
          some (fullValues c2rec0.values 0 0 0), 0⟩ ⟨0, 90⟩⟩ ⟨0, 180⟩ =
        6371.0 * (Real.pi / 2) * 1000 + 6371.0 * Real.pi * 1000 := by
      simp only [distStamp, newCum, fullValues]
      rw [c2_dist01, c2_dist02]
      ring
    rw [hD]
    rfl
  · rw [c2_dist02]
    intro heq
    have hgt : 0 < 6371.0 * (Real.pi / 2) * 1000 := by positivity
    linarith

theorem updateAssoc_fresh (l : List (Timestamp × TrackValues)) (k : Timestamp)
    (v : TrackValues) (h : ∀ p ∈ l, p.1 ≠ k) :
    updateAssoc l k v = l ++ [(k, v)] := by
  induction l with
  | nil => rfl
  | cons hd tl ih =>
      obtain ⟨k₀, v₀⟩ := hd
      have h1 : k₀ ≠ k := h (k₀, v₀) (List.mem_cons_self _ _)
      have h2 : ∀ p ∈ tl, p.1 ≠ k := fun p hp => h p (List.mem_cons_of_mem _ hp)
      simp [updateAssoc, h1, ih h2]

theorem chain_le_append (l : List ℝ) (c y : ℝ)
    (hch : List.Chain' (fun a b => a ≤ b) l)
    (hall : ∀ x ∈ l, x ≤ c) (hcy : c ≤ y) :
    List.Chain' (fun a b => a ≤ b) (l ++ [y]) := by
  rw [List.chain'_append]
  refine ⟨hch, List.chain'_singleton y, ?_⟩
  intro a ha b hb
  simp only [List.head?_cons, Option.mem_def, Option.some.injEq] at hb
  subst hb
  obtain ⟨hne, rfl⟩ := List.mem_getLast?_eq_getLast ha
  exact le_trans (hall _ (List.getLast_mem hne)) hcy

theorem le_newCum (st : LoopState) (pos : Pos) :
    st.cumulative_distance ≤ newCum st pos := by
  cases hp : st.prev_values with
  | none => simp [newCum, hp]
  | some pv =>
      simp only [newCum, hp]
      exact le_add_of_nonneg_right (compute_distance_nonneg _ _)

theorem loopInv_init : LoopInv initState := by
  refine ⟨by simp [initState, LoopInv], ?_, ?_, ?_, ?_⟩
  · intro ts v rest h
    simp [initState] at h
  · simp [initState]
  · intro x hx
    simp [initState] at hx
  · simp [initState]

theorem processRecord_inv (st : LoopState) (r : InfluxRecord)
    (hfresh : ∀ p ∈ st.result, p.1 ≠ r.time)
    (h : LoopInv st) :
    LoopInv (processRecord st r).1 ∧
    ∀ p ∈ (processRecord st r).1.result, p.1 = r.time ∨ p ∈ st.result := by
  obtain ⟨h1, h2, h3, h4, h5⟩ := h
  cases hla : r.values.lat with
  | none =>
      rw [processRecord_noPos st r (Or.inl hla)]
      exact ⟨⟨h1, h2, h3, h4, h5⟩, fun p hp => Or.inr hp⟩
  | some la =>
  cases hlo : r.values.lon with
  | none =>
      rw [processRecord_noPos st r (Or.inr hlo)]
      exact ⟨⟨h1, h2, h3, h4, h5⟩, fun p hp => Or.inr hp⟩
  | some lo =>
  by_cases hg : r.time.minute % 10 = 0 ∧ r.time.second = 0
  · rw [processRecord_full st r la lo hla hlo hg.1 hg.2]
    dsimp only
    rw [updateAssoc_fresh st.result r.time _ hfresh]
    constructor
    · refine ⟨?_, ?_, ?_, ?_, ?_⟩
      · exact iff_of_false (by simp) (by simp)
      · intro ts v rest heq
        cases hres : st.result with
        | nil =>
            rw [hres] at heq
            rw [List.nil_append] at heq
            injection heq with hpair hrest
            injection hpair with hts hv
            refine ⟨?_, ?_⟩
            · rw [← hts]
              exact hg
            · rw [← hv]
              have hprev : st.prev_values = none := h1.mp hres
              simp [fullValues, distStamp, hprev]
        | cons hd tl =>
            rw [hres] at heq
            simp only [List.cons_append, List.cons.injEq] at heq
            obtain ⟨hhd, -⟩ := heq
            exact h2 ts v tl (by rw [hres, hhd])
      · rw [List.filterMap_append]
        cases hprev : st.prev_values with
        | none =>
            have hres : st.result = [] := h1.mpr hprev
            simp [hres, fullValues]
        | some pv =>
            simp only [List.filterMap_cons, List.filterMap_nil, fullValues]
            refine chain_le_append _ st.cumulative_distance _ h3 h4 ?_
            simp only [distStamp, hprev]
            exact le_newCum st _
      · intro x hx
        rw [List.filterMap_append] at hx
        rcases List.mem_append.mp hx with hx | hx
        · exact le_trans (h4 x hx) (le_newCum st _)
        · simp only [List.filterMap_cons, List.filterMap_nil, fullValues,
            List.mem_singleton] at hx
          subst hx
          cases hprev : st.prev_values with
          | none =>
              simp only [distStamp, hprev]
              calc (0 : ℝ) ≤ st.cumulative_distance := h5
                _ ≤ newCum st _ := le_newCum st _
          | some pv =>
              simp only [distStamp, hprev]
              exact le_rfl
      · exact le_trans h5 (le_newCum st _)
    · intro p hp
      rcases List.mem_append.mp hp with hp | hp
      · exact Or.inr hp
      · simp only [List.mem_singleton] at hp
        subst hp
        exact Or.inl rfl
  · cases hcog : r.values.cog with
    | none =>
        rw [processRecord_noCog st r la lo hla hlo hg hcog]
        dsimp only
        refine ⟨⟨h1, h2, h3, ?_, ?_⟩, fun p hp => Or.inr hp⟩
        · intro x hx
          exact le_trans (h4 x hx) (le_newCum st _)
        · exact le_trans h5 (le_newCum st _)
    | some c =>
    cases hprev : st.prev_values with
    | none =>
        rw [processRecord_typeError st r la lo c hla hlo hg hcog hprev]
        exact ⟨⟨h1, h2, h3, h4, h5⟩, fun p hp => Or.inr hp⟩
    | some pv =>
    cases hpc : pv.cog with
    | none =>
        rw [processRecord_prevNoCog st r la lo c pv hla hlo hg hcog hprev hpc]
        dsimp only
        refine ⟨⟨h1, h2, h3, ?_, ?_⟩, fun p hp => Or.inr hp⟩
        · intro x hx
          exact le_trans (h4 x hx) (le_newCum st _)
        · exact le_trans h5 (le_newCum st _)
    | some pc =>
    by_cases hth : (0.2618 : ℝ) < |c - pc|
    · rw [processRecord_cogRetain st r la lo c pc pv hla hlo hg hcog hprev hpc hth]
      dsimp only
      rw [updateAssoc_fresh st.result r.time _ hfresh]
      have hadd : st.cumulative_distance ≤
          st.cumulative_distance + _compute_distance pv.position ⟨la, lo⟩ :=
        le_add_of_nonneg_right (compute_distance_nonneg _ _)
      constructor
      · refine ⟨iff_of_false (by simp) (by simp), ?_, ?_, ?_, ?_⟩
        · intro ts v rest heq
          cases hres : st.result with
          | nil =>
              exact absurd (h1.mp hres) (by simp [hprev])
          | cons hd tl =>
              rw [hres] at heq
              simp only [List.cons_append, List.cons.injEq] at heq
              obtain ⟨hhd, -⟩ := heq
              exact h2 ts v tl (by rw [hres, hhd])
        · rw [List.filterMap_append]
          simp only [List.filterMap_cons, List.filterMap_nil, cogValues]
          simpa using h3
        · intro x hx
          rw [List.filterMap_append] at hx
          simp only [List.filterMap_cons, List.filterMap_nil, cogValues,
            List.append_nil] at hx
          exact le_trans (h4 x hx) hadd
        · exact le_trans h5 hadd
      · intro p hp
        rcases List.mem_append.mp hp with hp | hp
        · exact Or.inr hp
        · simp only [List.mem_singleton] at hp
          subst hp
          exact Or.inl rfl
    · rw [processRecord_cogDrop st r la lo c pc pv hla hlo hg hcog hprev hpc hth]
      dsimp only
      refine ⟨⟨h1, h2, h3, ?_, ?_⟩, fun p hp => Or.inr hp⟩
      · intro x hx
        exact le_trans (h4 x hx) (le_newCum st _)
      · exact le_trans h5 (le_newCum st _)

theorem runLoop_LoopInv (rs : List InfluxRecord) (st : LoopState)
    (hInv : LoopInv st)
    (hfresh : ∀ r ∈ rs, ∀ p ∈ st.result, p.1 ≠ r.time)
    (hnd : (rs.map (fun r => r.time)).Nodup) :
    LoopInv (runLoop st rs).1 := by
  induction rs generalizing st with
  | nil => simpa [runLoop] using hInv
  | cons r rs ih =>
      have hf : ∀ p ∈ st.result, p.1 ≠ r.time :=
        hfresh r (List.mem_cons_self _ _)
      obtain ⟨hInv', hmem⟩ := processRecord_inv st r hf hInv
      have hndc : (∀ x ∈ rs, ¬x.time = r.time) ∧
          (List.map (fun r => r.time) rs).Nodup := by simpa using hnd
      cases hb : (processRecord st r).2 with
      | true =>
          simp only [runLoop, hb, if_true]
          exact hInv'
      | false =>
          simp only [runLoop, hb, if_false, Bool.false_eq_true]
          refine ih (processRecord st r).1 hInv' ?_ hndc.2
          intro r' hr' p hp
          rcases hmem p hp with hEq | hOld
          · rw [hEq]
            intro hcontra
            exact hndc.1 r' hr' hcontra.symm
          · exact hfresh r' (List.mem_cons_of_mem _ hr') p hOld

/-- Claim C7: across the output sequence of one reduction run the Distance
values that are present form a monotonically non-decreasing sequence, and
the first retained record carries Distance 0.  The records of the table are
assumed pairwise distinct in timestamp, which is what the upstream
aggregation produces (one merged record per window). -/
theorem c7_distance_monotone (t : List InfluxRecord)
    (hnd : (t.map (fun r => r.time)).Nodup) :
    List.Chain' (fun a b => a ≤ b)
      ((trackOf (get_data "10m" [t])).filterMap (fun p => p.2.distance)) ∧
    ∀ ts v rest, trackOf (get_data "10m" [t]) = (ts, v) :: rest →
      v.distance = some 0 := by
  rw [trackOf_get_data]
  have h := runLoop_LoopInv t initState loopInv_init
    (by
      intro r hr p hp
      simp [initState] at hp)
    hnd
  obtain ⟨h1, h2, h3, h4, h5⟩ := h
  exact ⟨h3, fun ts v rest heq => (h2 ts v rest heq).2⟩

theorem c7_distance_monotone_witness :
    (([c7rec0, c7rec1].map (fun r => r.time)).Nodup) ∧
    (List.Chain' (fun a b => a ≤ b)
      ((trackOf (get_data "10m" [[c7rec0, c7rec1]])).filterMap
        (fun p => p.2.distance)) ∧
     ∀ ts v rest, trackOf (get_data "10m" [[c7rec0, c7rec1]]) =
        (ts, v) :: rest → v.distance = some 0) :=
  ⟨by decide, c7_distance_monotone [c7rec0, c7rec1] (by decide)⟩

/-- Claim C10 (implicit): before anything has been retained, an off-grid
record with a valid position and a COG makes line 94 evaluate the membership
test against None and the iteration raises TypeError, so the per-record
skip-and-continue behaviour does not hold there; consequently, in a run that
finishes without that error the first retained keyframe is always a full
on-grid record with Distance 0, never a heading-change keyframe. -/
theorem c10_first_keyframe :
    (∀ (st : LoopState) (r : InfluxRecord) (la lo c : ℝ),
        st.prev_values = none →
        r.values.lat = some la → r.values.lon = some lo →
        r.values.cog = some c →
        ¬(r.time.minute % 10 = 0 ∧ r.time.second = 0) →
        processRecord st r = (st, true)) ∧
    (∀ t : List InfluxRecord, (t.map (fun r => r.time)).Nodup →
        (runLoop initState t).2 = false →
        ∀ ts v rest, (runLoop initState t).1.result = (ts, v) :: rest →
          (ts.minute % 10 = 0 ∧ ts.second = 0) ∧ v.distance = some 0) := by
  constructor
  · intro st r la lo c hprev hla hlo hcog hgrid
    exact processRecord_typeError st r la lo c hla hlo hgrid hcog hprev
  · intro t hnd _ ts v rest heq
    have h := runLoop_LoopInv t initState loopInv_init
      (by
        intro r hr p hp
        simp [initState] at hp)
      hnd
    exact h.2.1 ts v rest heq

theorem c10_first_keyframe_witness :
    ((⟨[], none, 0⟩ : LoopState).prev_values = none ∧
     c10rec0.values.lat = some 1 ∧ c10rec0.values.lon = some 1 ∧
     c10rec0.values.cog = some 1 ∧
     ¬(c10rec0.time.minute % 10 = 0 ∧ c10rec0.time.second = 0) ∧
     processRecord ⟨[], none, 0⟩ c10rec0 = (⟨[], none, 0⟩, true)) ∧
    (([c10rec1].map (fun r => r.time)).Nodup ∧
     (runLoop initState [c10rec1]).2 = false ∧
     (runLoop initState [c10rec1]).1.result =
       (c10rec1.time, fullValues c10rec1.values 1 1 0) :: [] ∧
     ((c10rec1.time.minute % 10 = 0 ∧ c10rec1.time.second = 0) ∧
      (fullValues c10rec1.values 1 1 0).distance = some 0)) := by
  have hstep : processRecord initState c10rec1 =
      (⟨[(c10rec1.time, fullValues c10rec1.values 1 1 0)],
        some (fullValues c10rec1.values 1 1 0), 0⟩, false) :=
    processRecord_full initState c10rec1 1 1 rfl rfl rfl rfl
  have hrun : runLoop initState [c10rec1] =
      (⟨[(c10rec1.time, fullValues c10rec1.values 1 1 0)],
        some (fullValues c10rec1.values 1 1 0), 0⟩, false) := by
    rw [runLoop_cons_ok _ _ _ _ hstep]
    rfl
  refine ⟨⟨rfl, rfl, rfl, rfl, by decide,
    c10_first_keyframe.1 ⟨[], none, 0⟩ c10rec0 1 1 1 rfl rfl rfl rfl
      (by decide)⟩,
    by decide, by rw [hrun], by rw [hrun],
    c10_first_keyframe.2 [c10rec1] (by decide) (by rw [hrun])
      c10rec1.time (fullValues c10rec1.values 1 1 0) [] (by rw [hrun])⟩
